import Mathlib

/-!
Verification of the vpn-router-daemon sources (Go) against its
natural-language specification, via a shallow embedding in Lean 4.

Modelling conventions, used throughout:
* Go machine integers (pids, exit codes, counters) are `Int`.
* External effects (the OS process table, the filesystem pidfile, the
  network-interface table, HTTP responses, subprocess outcomes) are
  supplied as explicit oracle values; each embedded function consumes
  the oracles the corresponding Go function observes and returns the
  effects (signals sent, pidfile writes) it performs.
* `strings.TrimSpace` is modelled by a structurally recursive `trimStr`;
  response bodies are truncated by characters where Go truncates by
  bytes (identical on the ASCII data these claims are about).
-/

namespace VpnRouter

/-! ## String helpers (kernel-computable models of the Go stdlib calls) -/

/-- goIsSpace holds on the ASCII whitespace characters recognised by
`unicode.IsSpace` (the data in these claims is ASCII). -/
def goIsSpace (c : Char) : Bool :=
  c == ' ' || c == '\t' || c == '\n' || c == '\x0b' || c == '\x0c' || c == '\r'

/-- trimStr models `strings.TrimSpace`: drop leading and trailing
whitespace. Defined by structural recursion over the character list so
that concrete instances evaluate inside the kernel. -/
def trimStr (s : String) : String :=
  String.mk (((s.data.dropWhile goIsSpace).reverse.dropWhile goIsSpace).reverse)

/-- takeStr models reading at most `n` units of a body
(`io.LimitReader`); truncation is by characters where Go truncates by
bytes, identical on ASCII data. -/
def takeStr (s : String) (n : Nat) : String :=
  String.mk (s.data.take n)

/-! ## internal/healthcheck/healthcheck.go -/

/-- Result mirrors `healthcheck.Result` (fields used by the claims). -/
structure HCResult where
  ok : Bool
  statusCode : Int
  body : String
  err : String
  deriving Repr, DecidableEq

/-- Outcome of the single HTTP GET performed by `healthcheck.Check`:
either the transport fails, or a response with a status code and a raw
body arrives. -/
inductive HTTPOutcome where
  | failure (msg : String)
  | response (status : Int) (rawBody : String)
  deriving Repr, DecidableEq

/-- Body bound in `healthcheck.Check`: `const max = 4 * 1024`. -/
def bodyMax : Nat := 4 * 1024

/-- Check embeds `healthcheck.Check`: on transport failure, `ok=false`
with an error text; otherwise the body is read up to `bodyMax` and
trimmed, and `ok` holds iff the status is 200 and the body is
non-empty. -/
def Check (o : HTTPOutcome) : HCResult :=
  match o with
  | .failure msg =>
      { ok := false, statusCode := 0, body := "", err := "http do: " ++ msg }
  | .response st raw =>
      let body := trimStr (takeStr raw bodyMax)
      { ok := st == 200 && body != "", statusCode := st, body := body, err := "" }

/-- mismatchErr is the text built by `fmt.Sprintf("unexpected egress ip
%q (expected one of %v)", body, expectedIPs)`. -/
def mismatchErr (body : String) (expectedIPs : List String) : String :=
  "unexpected egress ip \"" ++ body ++ "\" (expected one of ["
    ++ String.intercalate " " expectedIPs ++ "])"

/-- CheckExpected embeds `healthcheck.CheckExpected`: runs `Check`, and
when `expectedIPs` is non-empty additionally demands that the trimmed
body equal one trimmed entry, otherwise flips `ok` to false with a
mismatch error. -/
def CheckExpected (o : HTTPOutcome) (expectedIPs : List String) : HCResult :=
  let res := Check o
  if !res.ok then res
  else if expectedIPs.length == 0 then res
  else
    let body := trimStr res.body
    if expectedIPs.any (fun ip => trimStr ip == body) then res
    else { res with ok := false, err := mismatchErr body expectedIPs }

/-! ## internal/control/control.go — RunScript -/

/-- CmdResult mirrors `control.Result`. -/
structure CmdResult where
  exitCode : Int
  stdout : String
  stderr : String
  deriving Repr, DecidableEq

/-- Outcome of `cmd.Run()` inside `RunScript`:
* `startFailed` — the error is not an `exec.ExitError` (binary missing,
  permission denied, ...); nothing ran, so no output was captured;
* `exited c out err` — the process exited by itself with status `c`
  (a non-negative status; `cmd.Run` returns nil for `c = 0` and an
  `exec.ExitError` with `ExitCode() = c` otherwise);
* `killedAtDeadline out err` — the context deadline expired and the
  process was killed; `cmd.Run` returns an `exec.ExitError` whose
  `ExitCode()` is -1 (terminated by a signal), and the buffers hold the
  output captured so far. -/
inductive RunOutcome where
  | startFailed
  | exited (code : Nat) (stdoutSoFar stderrSoFar : String)
  | killedAtDeadline (stdoutSoFar stderrSoFar : String)
  deriving Repr, DecidableEq

/-- exitCode embeds `control.exitCode` together with the documented
behaviour of `exec.ExitError.ExitCode()`: a self-exit reports its
status, a signal-killed process reports -1, and a non-`ExitError`
failure reports -1. -/
def exitCode : RunOutcome → Int
  | .startFailed => -1
  | .exited c _ _ => (c : Int)
  | .killedAtDeadline _ _ => -1

/-- stdoutOf gives the stdout buffer contents when `cmd.Run` returns. -/
def stdoutOf : RunOutcome → String
  | .startFailed => ""
  | .exited _ out _ => out
  | .killedAtDeadline out _ => out

/-- stderrOf gives the stderr buffer contents when `cmd.Run` returns. -/
def stderrOf : RunOutcome → String
  | .startFailed => ""
  | .exited _ _ e => e
  | .killedAtDeadline _ e => e

/-- runErrNonNil tells whether `cmd.Run()` returned a non-nil error. -/
def runErrNonNil : RunOutcome → Bool
  | .startFailed => true
  | .exited c _ _ => c != 0
  | .killedAtDeadline _ _ => true

/-- deadlineExceeded models `cctx.Err() == context.DeadlineExceeded`
after `cmd.Run` returns. A deadline kill implies it; for the other
outcomes the deadline may still have expired in the race window between
process completion and the check, which the oracle `raced` decides. -/
def deadlineExceeded (o : RunOutcome) (raced : Bool) : Bool :=
  match o with
  | .killedAtDeadline _ _ => true
  | _ => raced

/-- The two error conditions `RunScript` can report, corresponding to
the `command timed out after ...` and `command failed (exit=...)`
messages. -/
inductive ScriptErr where
  | timedOut
  | commandFailed (exit : Int)
  deriving Repr, DecidableEq

/-- RunScript embeds `control.RunScript`: it always builds a (non-nil)
result from the exit code and the trimmed captured output, then reports
a timeout when the deadline expired, a command failure on any other
non-nil run error, and success otherwise. -/
def RunScript (o : RunOutcome) (raced : Bool) : CmdResult × Option ScriptErr :=
  let res : CmdResult :=
    { exitCode := exitCode o
      stdout := trimStr (stdoutOf o)
      stderr := trimStr (stderrOf o) }
  if deadlineExceeded o raced then (res, some .timedOut)
  else if runErrNonNil o then (res, some (.commandFailed res.exitCode))
  else (res, none)

/-! ## internal/singboxctl/singboxctl.go — pidfile, liveness, signalling

The on-disk ownership record (pidfile) is modelled by the integer it
holds after parsing (`none` = file missing or unparseable). The OS
process table is the oracle `alive : Int → Bool` giving the answer of
the `kill(pid, 0)` probe, with EPERM folded into `true` as in the
source. -/

/-- readPID embeds `singboxctl.readPID`: missing or unparseable files
and values at most 1 count as no ownership record. -/
def readPID (content : Option Int) : Option Int :=
  match content with
  | none => none
  | some n => if n ≤ 1 then none else some n

/-- processAlive embeds `singboxctl.processAlive`: pids at most 1 are
never alive, otherwise the signal-0 probe decides. -/
def processAlive (alive : Int → Bool) (pid : Int) : Bool :=
  if pid ≤ 1 then false else alive pid

/-- The two signals `stopPID` can send. -/
inductive Sig where
  | sigterm
  | sigkill
  deriving Repr, DecidableEq

/-- One `kill(2)` call performed by the daemon: signal `sig` aimed at
`pid`; `group = true` when the whole process group was targeted (Go
signals `-pid`). -/
structure SignalEvent where
  pid : Int
  sig : Sig
  group : Bool
  deriving Repr, DecidableEq

/-- Per-pid reaction of the process to the stop sequence:
`survivesTerm pid` = still alive when the 3s TERM grace period ends;
`survivesKill pid` = still alive 200ms after SIGKILL. -/
structure StopOracle where
  survivesTerm : Int → Bool
  survivesKill : Int → Bool

/-- stopPID embeds `singboxctl.stopPID`: best-effort SIGTERM to the
process group and the pid, a bounded poll for exit, then SIGKILL
escalation, failing only if the process is still alive afterwards. -/
def stopPID (o : StopOracle) (pid : Int) : Except String Unit × List SignalEvent :=
  let termSigs : List SignalEvent := [⟨pid, .sigterm, true⟩, ⟨pid, .sigterm, false⟩]
  if !o.survivesTerm pid then (.ok (), termSigs)
  else
    let allSigs := termSigs ++ [⟨pid, .sigkill, true⟩, ⟨pid, .sigkill, false⟩]
    if o.survivesKill pid then
      (.error ("failed to stop sing-box pid " ++ toString pid), allSigs)
    else (.ok (), allSigs)

/-- StopIfOwned embeds `singboxctl.StopIfOwned`, returning the result,
the pidfile contents after the call, and the signals sent. Note the
source removes the pidfile after a dead pid or a successful `stopPID`,
but returns early, keeping the record, when `stopPID` fails. -/
def StopIfOwned (alive : Int → Bool) (so : StopOracle) (pidfile : Option Int) :
    Except String Unit × Option Int × List SignalEvent :=
  match readPID pidfile with
  | none => (.ok (), pidfile, [])
  | some pid =>
    if !processAlive alive pid then (.ok (), none, [])
    else
      match stopPID so pid with
      | (.error e, sigs) => (.error e, pidfile, sigs)
      | (.ok _, sigs) => (.ok (), none, sigs)

/-! ## internal/singboxctl/singboxctl.go — interface watching

A `Snap` is a point-in-time view of the utun interfaces in the order
`net.Interfaces` enumerates them: the name paired with whether the
interface carries an IPv4 address. A polling loop bounded by a deadline
becomes structural recursion over the list of snapshots observed at the
successive polls before the deadline. -/

/-- Snap is one enumeration of the utun interfaces. -/
abbrev Snap := List (String × Bool)

/-- utunHasIPv4 embeds `singboxctl.utunHasIPv4`; `none` models the
`net.InterfaceByName` error for an absent interface. -/
def utunHasIPv4 (s : Snap) (name : String) : Option Bool :=
  (s.find? (fun p => p.fst == name)).map (fun p => p.snd)

/-- findUTUNWithIPv4 embeds `singboxctl.findUTUNWithIPv4`: the first
utun carrying an IPv4 address, in enumeration order; `none` models the
no-such-interface error. -/
def findUTUNWithIPv4 (s : Snap) : Option String :=
  (s.find? (fun p => p.snd)).map (fun p => p.fst)

/-- listUTUN embeds `singboxctl.listUTUN`: the names present now, and
the names present now that lack an IPv4 address. -/
def listUTUN (s : Snap) : List String × List String :=
  (s.map Prod.fst, (s.filter (fun p => !p.snd)).map Prod.fst)

/-- pickAnyUTUNWithIPv4 embeds `singboxctl.pickAnyUTUNWithIPv4`. The Go
range over a map has unspecified order; it is modelled as list order,
and the theorems instantiate it only at order-independent inputs. -/
def pickAnyUTUNWithIPv4 (present noIPv4 : List String) : String :=
  match present.find? (fun name => name != "" && !noIPv4.contains name) with
  | some name => name
  | none => ""

/-- waitForPreferred embeds the first loop of
`singboxctl.waitForUTUNReady` (a preferred interface name is pinned):
poll until the preferred interface exists and has IPv4, and fail with
the timeout error if the deadline passes first. -/
def waitForPreferred (preferUTUN : String) : List Snap → Except String String
  | [] => .error ("preferred utun \"" ++ preferUTUN ++ "\" not ready before timeout")
  | s :: rest =>
    if utunHasIPv4 s preferUTUN == some true then .ok preferUTUN
    else waitForPreferred preferUTUN rest

/-- waitForAnyReady embeds the second loop of
`singboxctl.waitForUTUNReady` (no preferred name): at each poll, take
the first utun with IPv4; with a nil before-snapshot accept it, with a
snapshot accept it when it is new or was present without IPv4 — and
then, mirroring the source exactly, accept it anyway on the remaining
fallthrough (the source comment reads: if only one tunnel exists, this
is still good enough — but the return is unconditional, with no check
that only one candidate exists). -/
def waitForAnyReady (beforeSet beforeNoIPv4 : Option (List String)) :
    List Snap → Except String String
  | [] => .error "no utun with IPv4 within timeout"
  | s :: rest =>
    match findUTUNWithIPv4 s with
    | some utun =>
      match beforeSet with
      | none => .ok utun
      | some bset =>
        if !bset.contains utun
            || (match beforeNoIPv4 with
                | some bn => bn.contains utun
                | none => false) then
          .ok utun
        else
          .ok utun
    | none => waitForAnyReady beforeSet beforeNoIPv4 rest

/-- waitForUTUNReady embeds `singboxctl.waitForUTUNReady`: dispatch on
whether a preferred interface name is pinned. -/
def waitForUTUNReady (beforeSet beforeNoIPv4 : Option (List String))
    (polls : List Snap) (preferUTUN : String) : Except String String :=
  if preferUTUN != "" then waitForPreferred preferUTUN polls
  else waitForAnyReady beforeSet beforeNoIPv4 polls

/-! ## internal/singboxctl/singboxctl.go — EnsureRunning / Inspect -/

/-- Status mirrors `singboxctl.Status` (the `AdoptedExternal` field is
never set by the embedded operations, as in the source). -/
structure Status where
  running : Bool
  pid : Int
  ownedByUs : Bool
  newUTUN : String
  deriving Repr, DecidableEq

/-- boolVal embeds `singboxctl.boolVal` on the tri-state optional
boolean configuration. -/
def boolVal (p : Option Bool) (d : Bool) : Bool :=
  match p with
  | none => d
  | some b => b

/-- findExternalSingBoxPID embeds `singboxctl.findExternalSingBoxPID`.
Parsing the `pgrep -af` output and matching the command line against
`sing-box run -c <config>` are abstracted into the oracle candidate
pid; the liveness filter of the source is kept. -/
def findExternalSingBoxPID (alive : Int → Bool) (pgrepCandidate : Option Int) : Option Int :=
  match pgrepCandidate with
  | some pid => if processAlive alive pid then some pid else none
  | none => none

/-- EnsureOracle bundles everything `EnsureRunning` observes from the
outside world: the process table, the stop behaviour, the adoption
setting `cfg.SingBoxAdoptExternal`, the `pgrep` candidate, the
interface name pinned in the sing-box config (`tunNameFromConfig`,
empty when none), the interface enumerations (at entry, inside
`pickReady`, and at the successive waiting polls), the outcome of
`startSingBox`, and whether the pidfile write succeeds. -/
structure EnsureOracle where
  alive : Int → Bool
  stop : StopOracle
  adoptExternal : Option Bool
  pgrepCandidate : Option Int
  preferUTUN : String
  beforeSnap : Snap
  afterSnap : Snap
  polls : List Snap
  startResult : Except String Int
  writePIDOk : Bool

/-- pickReady embeds the `pickReady` closure of
`singboxctl.EnsureRunning`: first any currently present utun with IPv4,
else wait for one to become ready. -/
def pickReady (o : EnsureOracle) : Except String String :=
  let after := listUTUN o.afterSnap
  let utun := pickAnyUTUNWithIPv4 after.1 after.2
  if utun != "" then .ok utun
  else
    let before := listUTUN o.beforeSnap
    waitForUTUNReady (some before.1) (some before.2) o.polls o.preferUTUN

/-- ensureStart embeds branch 3 of `singboxctl.EnsureRunning`: start a
new sing-box, write the pidfile, wait for the interface; on a pidfile
write failure stop the just-started process (pidfile contents modelled
as unchanged by the failed write); on a readiness timeout stop the
just-started process and remove the pidfile. -/
def ensureStart (o : EnsureOracle) (pidfile : Option Int) :
    Except String Status × Option Int × List SignalEvent :=
  match o.startResult with
  | .error e => (.error e, pidfile, [])
  | .ok pid =>
    if !o.writePIDOk then
      match stopPID o.stop pid with
      | (_, sigs) => (.error "pidfile write", pidfile, sigs)
    else
      let before := listUTUN o.beforeSnap
      match waitForUTUNReady (some before.1) (some before.2) o.polls o.preferUTUN with
      | .error e =>
        match stopPID o.stop pid with
        | (_, sigs) =>
          (.error ("sing-box started but no utun appeared before timeout: " ++ e), none, sigs)
      | .ok utun => (.ok ⟨true, pid, true, utun⟩, some pid, [])

/-- ensureAdoptOrStart embeds branch 2 of `singboxctl.EnsureRunning`
(adopt an external process when the policy allows and one is alive,
without ever writing an ownership record for it) with fallthrough to
branch 3. -/
def ensureAdoptOrStart (o : EnsureOracle) (pidfile : Option Int) :
    Except String Status × Option Int × List SignalEvent :=
  if boolVal o.adoptExternal true then
    match findExternalSingBoxPID o.alive o.pgrepCandidate with
    | some pid =>
      if pid > 0 && processAlive o.alive pid then
        match pickReady o with
        | .ok utun => (.ok ⟨true, pid, false, utun⟩, pidfile, [])
        | .error e => (.error ("adopted external sing-box but no utun: " ++ e), pidfile, [])
      else ensureStart o pidfile
    | none => ensureStart o pidfile
  else ensureStart o pidfile

/-- EnsureRunning embeds `singboxctl.EnsureRunning`: strict priority of
owned pidfile process, then external adoption, then starting a new
process. Returns the result, the pidfile contents after the call, and
the signals sent. -/
def EnsureRunning (o : EnsureOracle) (pidfile : Option Int) :
    Except String Status × Option Int × List SignalEvent :=
  match readPID pidfile with
  | some pid =>
    if processAlive o.alive pid then
      match pickReady o with
      | .ok utun => (.ok ⟨true, pid, true, utun⟩, pidfile, [])
      | .error e => (.error ("sing-box running (owned) but no utun: " ++ e), pidfile, [])
    else ensureAdoptOrStart o pidfile
  | none => ensureAdoptOrStart o pidfile

/-- Inspect embeds `singboxctl.Inspect`: pidfile readable means owned,
liveness decides `running`. -/
def Inspect (alive : Int → Bool) (pidfile : Option Int) : Status :=
  match readPID pidfile with
  | none => ⟨false, 0, false, ""⟩
  | some pid =>
    if processAlive alive pid then ⟨true, pid, true, ""⟩
    else ⟨false, pid, true, ""⟩

/-! ## doRecovery (watchdog recovery flow) -/

/-- RecoveryOracle extends the `EnsureRunning` oracle with the outcome
of the `pf_apply` script run (`none` = success). -/
structure RecoveryOracle where
  ensure : EnsureOracle
  pfApplyErr : Option String

/-- doRecoveryAfterStop embeds the tail of `doRecovery` after the
conditional owned stop: ensure sing-box runs, validate the status, then
run `pf_apply`. -/
def doRecoveryAfterStop (o : RecoveryOracle) (pidfile : Option Int)
    (sigs0 : List SignalEvent) :
    Except String Unit × Option Int × List SignalEvent :=
  match EnsureRunning o.ensure pidfile with
  | (.error e, pf2, sigs) => (.error ("ensure sing-box: " ++ e), pf2, sigs0 ++ sigs)
  | (.ok sb, pf2, sigs) =>
    if !sb.running || sb.newUTUN == "" then
      (.error "sing-box not running or utun not detected", pf2, sigs0 ++ sigs)
    else
      match o.pfApplyErr with
      | some e => (.error ("pf_apply: " ++ e), pf2, sigs0 ++ sigs)
      | none => (.ok (), pf2, sigs0 ++ sigs)

/-- doRecovery embeds `doRecovery` from the watchdog: inspect, stop the
sing-box only when it is owned (the source comment reads: never kill an
external sing-box), then ensure it runs and re-apply the pf policy. -/
def doRecovery (o : RecoveryOracle) (pidfile : Option Int) :
    Except String Unit × Option Int × List SignalEvent :=
  let sb0 := Inspect o.ensure.alive pidfile
  if sb0.ownedByUs then
    match StopIfOwned o.ensure.alive o.ensure.stop pidfile with
    | (.error e, pf2, sigs) => (.error ("stop sing-box (owned): " ++ e), pf2, sigs)
    | (.ok _, pf2, sigs) => doRecoveryAfterStop o pf2 sigs
  else doRecoveryAfterStop o pidfile []

/-- ownedPids lists the pids the daemon owns in a recovery flow started
on pidfile contents `pf` under oracle `o`: the pid recorded in the
ownership record, and the pid of a process this daemon itself starts.
An adopted external process is in neither class. -/
def ownedPids (o : RecoveryOracle) (pf : Option Int) : List Int :=
  (match readPID pf with
   | some p => [p]
   | none => [])
  ++ (match o.ensure.startResult with
      | .ok p => [p]
      | .error _ => [])

/-! ## cmd/vpnrd/main.go — the watchdog loop of cmdRun

One iteration of the `for` loop in `cmdRun` becomes a step function on
the loop state (`consecutiveFails`, `recoveries`); the outside world
contributes per-tick inputs (the two health probe outcomes and whether
`doRecovery` failed), and the step reports the observable events of the
iteration in order. `doRecovery` — the only place the loop stops a
process or invokes the `pf_apply` PolicyApplier — appears as the
`recovery` event. -/

/-- WatchdogCfg carries the two configuration values the loop branches
on. -/
structure WatchdogCfg where
  failureThreshold : Int
  maxRecoveries : Int
  deriving Repr, DecidableEq

/-- LoopState is the in-closure state of the watchdog loop. -/
structure LoopState where
  consecutiveFails : Int
  recoveries : Int
  deriving Repr, DecidableEq

/-- TickInput is what one iteration observes: the main probe outcome,
whether `doRecovery` returned an error, and the post-recovery probe
outcome (the last two are only consulted when a recovery runs). -/
structure TickInput where
  healthOK : Bool
  recoveryErr : Bool
  health2OK : Bool
  deriving Repr, DecidableEq

/-- LoopEvent is one observable action of a loop iteration. -/
inductive LoopEvent where
  | probe (ok : Bool)
  | exhaustedLog
  | recovery
  deriving Repr, DecidableEq

/-- tick embeds one iteration of the `for` loop in `cmdRun`: probe,
update the failure counter, and when the counter has reached the
threshold either log exhaustion (budget used up) or increment the
recovery counter, run `doRecovery`, and re-probe, resetting the failure
counter only if the re-probe succeeds. -/
def tick (cfg : WatchdogCfg) (s : LoopState) (i : TickInput) : LoopState × List LoopEvent :=
  let fails := if i.healthOK then 0 else s.consecutiveFails + 1
  if cfg.failureThreshold ≤ fails then
    if cfg.maxRecoveries ≤ s.recoveries then
      (⟨fails, s.recoveries⟩, [.probe i.healthOK, .exhaustedLog])
    else
      let recs := s.recoveries + 1
      let fails2 := if i.health2OK then 0 else fails
      (⟨fails2, recs⟩, [.probe i.healthOK, .recovery, .probe i.health2OK])
  else (⟨fails, s.recoveries⟩, [.probe i.healthOK])

/-- runLoop iterates `tick` over a finite prefix of the (endless)
watchdog loop, collecting the per-iteration event lists. -/
def runLoop (cfg : WatchdogCfg) (s : LoopState) :
    List TickInput → LoopState × List (List LoopEvent)
  | [] => (s, [])
  | i :: rest =>
    let step := tick cfg s i
    let next := runLoop cfg step.1 rest
    (next.1, step.2 :: next.2)

/-- recoveryEventCount counts the `doRecovery` invocations in a run. -/
def recoveryEventCount (evss : List (List LoopEvent)) : Nat :=
  (evss.map (fun evs => evs.count .recovery)).sum

/-- specThresholdCrossings is written from the words of the
specification, not from the source: it counts the ticks on which the
consecutive-failure count crosses the threshold from below (it was
below the threshold when the tick began and at or above it once the
health result of the tick is absorbed). Used to compare the claimed
"exactly one recovery attempt per threshold-crossing" with the
behaviour of the loop. -/
def specThresholdCrossings (cfg : WatchdogCfg) (s : LoopState) :
    List TickInput → Nat
  | [] => 0
  | i :: rest =>
    let fails := if i.healthOK then 0 else s.consecutiveFails + 1
    let here :=
      if s.consecutiveFails < cfg.failureThreshold ∧ cfg.failureThreshold ≤ fails then 1 else 0
    here + specThresholdCrossings cfg (tick cfg s i).1 rest

/-! ## internal/config/config.go — defaults for the claims -/

/-- ConfigM carries the configuration fields the claims rely on, with
the yaml-absent encodings of the source (`nil` pointer for the
tri-state adoption flag, zero for the unset counters). -/
structure ConfigM where
  singBoxAdoptExternal : Option Bool
  failureThreshold : Int
  maxRecoveries : Int
  deriving Repr, DecidableEq

/-- applyDefaults embeds the part of `config.applyDefaults` acting on
the modelled fields: a nil adoption flag becomes `true`, a zero failure
threshold becomes 3, a zero recovery budget becomes 5. -/
def applyDefaults (c : ConfigM) : ConfigM :=
  { c with
    singBoxAdoptExternal :=
      match c.singBoxAdoptExternal with
      | none => some true
      | some b => some b
    failureThreshold := if c.failureThreshold = 0 then 3 else c.failureThreshold
    maxRecoveries := if c.maxRecoveries = 0 then 5 else c.maxRecoveries }

end VpnRouter

namespace VpnRouter

/-! ## Theorems

One theorem per claim of the specification review, with shared helper
lemmas. Claim theorems carry the claim id in their doc comment. -/

section HealthClaims

/-- C6: for every probe with a non-empty expected-identity set, the
result has `ok=true` iff the HTTP call returned status 200 with a
non-empty (trimmed, bounded) body that equals one (trimmed) entry of
the set; moreover with expectedIdentities=["203.0.113.9"] a body of
"203.0.113.9" yields ok=true, while a body of "198.51.100.1" yields
ok=false with the descriptive mismatch error text although the status
was 200. -/
theorem checkExpected_identity_match (st : Int) (raw : String)
    (exp : List String) (hne : exp ≠ []) :
    ((CheckExpected (.response st raw) exp).ok = true ↔
      st = 200 ∧ (Check (.response st raw)).body ≠ ""
        ∧ exp.any (fun ip => trimStr ip == trimStr (Check (.response st raw)).body) = true)
    ∧ (CheckExpected (.response 200 "203.0.113.9") ["203.0.113.9"]).ok = true
    ∧ (CheckExpected (.response 200 "198.51.100.1") ["203.0.113.9"]).ok = false
    ∧ (CheckExpected (.response 200 "198.51.100.1") ["203.0.113.9"]).statusCode = 200
    ∧ (CheckExpected (.response 200 "198.51.100.1") ["203.0.113.9"]).err
        = "unexpected egress ip \"198.51.100.1\" (expected one of [203.0.113.9])" := by
  refine ⟨?_, by decide, by decide, by decide, by decide⟩
  have hlen : (exp.length == 0) = false := by
    simp only [beq_eq_false_iff_ne, ne_eq, List.length_eq_zero]
    exact hne
  by_cases hok : ((st == 200 && trimStr (takeStr raw bodyMax) != "")) = true
  · by_cases hany :
        (exp.any (fun ip => trimStr ip == trimStr (trimStr (takeStr raw bodyMax)))) = true
    · simp [CheckExpected, Check, hok, hlen, hany]
      simp only [Bool.and_eq_true, beq_iff_eq, bne_iff_ne, ne_eq] at hok
      exact ⟨hok.1, hok.2⟩
    · simp [CheckExpected, Check, hok, hlen, hany]
  · simp [CheckExpected, Check, hok]
    simp only [Bool.and_eq_true, beq_iff_eq, bne_iff_ne, ne_eq, not_and] at hok
    intro h1 h2
    exact absurd (hok h1) (by simpa using h2)

/-- C6 witness: the theorem instantiated at the concrete probe of the
claim (status 200, matching body, singleton expected set). -/
theorem checkExpected_identity_match_witness :
    (CheckExpected (.response 200 "203.0.113.9") ["203.0.113.9"]).ok = true :=
  (checkExpected_identity_match 200 "203.0.113.9" ["203.0.113.9"] (by decide)).2.1

end HealthClaims

section RunScriptClaims

/-- Helper: the result built by RunScript always carries `exitCode o`,
whichever error branch is taken. -/
theorem runScript_result_exitCode (o : RunOutcome) (raced : Bool) :
    (RunScript o raced).1.exitCode = exitCode o := by
  simp only [RunScript]
  split
  · rfl
  · split <;> rfl

/-- C9 counterexample: when the hard deadline kills a command that did
start (and had produced output), the returned result carries exit code
-1 together with the timeout error, although the outcome is not a
spawn failure — refuting the claim that -1 appears exactly when the
command could not be started at all. -/
theorem runScript_minus_one_on_timeout :
    (RunScript (.killedAtDeadline "partial" "") false).1.exitCode = -1
    ∧ (RunScript (.killedAtDeadline "partial" "") false).2 = some .timedOut
    ∧ RunOutcome.killedAtDeadline "partial" "" ≠ RunOutcome.startFailed := by
  refine ⟨rfl, rfl, by decide⟩

/-- C9 (amended): the runner always returns a result; on deadline
expiry it carries the output captured so far together with the timeout
error; a nonzero self-exit (with the deadline not expired) yields that
exit code with a command-failed error; and exit code -1 appears in the
result exactly when the command could not be started at all or was
terminated by a signal — as it is by the deadline kill — and never for
a clean self-exit, zero or nonzero. -/
theorem runScript_classification (o : RunOutcome) (raced : Bool) :
    (deadlineExceeded o raced = true →
      (RunScript o raced).2 = some .timedOut
      ∧ (RunScript o raced).1.stdout = trimStr (stdoutOf o)
      ∧ (RunScript o raced).1.stderr = trimStr (stderrOf o))
    ∧ (∀ c out errOut, o = .exited c out errOut → c ≠ 0 → raced = false →
        (RunScript o raced).2 = some (.commandFailed (c : Int))
        ∧ (RunScript o raced).1.exitCode = (c : Int))
    ∧ ((RunScript o raced).1.exitCode = -1 ↔
        (o = .startFailed ∨ ∃ out errOut, o = .killedAtDeadline out errOut))
    ∧ (∀ c out errOut, o = .exited c out errOut →
        (RunScript o raced).1.exitCode = (c : Int) ∧ (c : Int) ≠ -1) := by
  refine ⟨?_, ?_, ?_, ?_⟩
  · intro hd
    simp [RunScript, hd]
  · rintro c out errOut rfl hc rfl
    simp [RunScript, deadlineExceeded, runErrNonNil, exitCode, hc]
  · rw [runScript_result_exitCode]
    cases o with
    | startFailed => simp [exitCode]
    | exited c out errOut =>
      simp only [exitCode, reduceCtorEq, exists_false, or_false, iff_false]
    | killedAtDeadline out errOut => simp [exitCode]
  · rintro c out errOut rfl
    rw [runScript_result_exitCode]
    refine ⟨rfl, by omega⟩

/-- C9 witness: the amended classification applied at a clean exit
with code 3 and at a deadline kill. -/
theorem runScript_classification_witness :
    (RunScript (.exited 3 "out" "") false).2 = some (.commandFailed 3)
    ∧ (RunScript (.killedAtDeadline "p" "") false).2 = some .timedOut := by
  refine ⟨?_, ?_⟩
  · exact ((runScript_classification (.exited 3 "out" "") false).2.1 3 "out" ""
      rfl (by decide) rfl).1
  · exact ((runScript_classification (.killedAtDeadline "p" "") false).1 (by decide)).1

end RunScriptClaims

section ConfigClaims

/-- C10: leaving `singbox_adopt_external` unset enables adoption by
default: `applyDefaults` turns the nil field into `true`, `boolVal`
treats a nil value as its default `true`, and `EnsureRunning` run with
the field unset (no ownership record, one live external candidate)
evaluates the adopt-external branch and takes it, returning an adopted
(not owned) status without touching the ownership record. -/
theorem adopt_external_default_enabled :
    (applyDefaults ⟨none, 0, 0⟩).singBoxAdoptExternal = some true
    ∧ boolVal none true = true
    ∧ EnsureRunning
        { alive := fun p => p == 9, stop := ⟨fun _ => false, fun _ => false⟩,
          adoptExternal := none, pgrepCandidate := some 9, preferUTUN := "",
          beforeSnap := [], afterSnap := [("utun3", true)], polls := [],
          startResult := .error "start disabled", writePIDOk := true }
        none
      = (.ok ⟨true, 9, false, "utun3"⟩, none, []) := by
  refine ⟨rfl, rfl, rfl⟩

end ConfigClaims

section WatchdogClaims

/-- Helper: one tick never lifts the recovery counter above the
budget. -/
theorem tick_recoveries_le (cfg : WatchdogCfg) (s : LoopState) (i : TickInput)
    (hs : s.recoveries ≤ cfg.maxRecoveries) :
    (tick cfg s i).1.recoveries ≤ cfg.maxRecoveries := by
  simp only [tick]
  split_ifs
  all_goals dsimp only
  all_goals omega

/-- Helper: a tick taken with the budget exhausted keeps the counter,
runs no recovery, and still probes. -/
theorem tick_exhausted (cfg : WatchdogCfg) (s : LoopState) (i : TickInput)
    (hs : s.recoveries = cfg.maxRecoveries) :
    (tick cfg s i).1.recoveries = cfg.maxRecoveries
    ∧ LoopEvent.recovery ∉ (tick cfg s i).2
    ∧ LoopEvent.probe i.healthOK ∈ (tick cfg s i).2 := by
  simp only [tick]
  split_ifs
  all_goals dsimp only
  all_goals first
    | exact ⟨hs, by simp, by simp⟩
    | exact absurd hs (by omega)

/-- Helper: along any run, the recovery counter stays within the
budget. -/
theorem runLoop_recoveries_le (cfg : WatchdogCfg) (inputs : List TickInput)
    (s : LoopState) (hs : s.recoveries ≤ cfg.maxRecoveries) :
    (runLoop cfg s inputs).1.recoveries ≤ cfg.maxRecoveries := by
  induction inputs generalizing s with
  | nil => exact hs
  | cons i rest ih =>
    exact ih (tick cfg s i).1 (tick_recoveries_le cfg s i hs)

/-- Helper: along any run started with the budget exhausted, every tick
is recovery-free and still probes. -/
theorem runLoop_exhausted (cfg : WatchdogCfg) (inputs : List TickInput)
    (s : LoopState) (hs : s.recoveries = cfg.maxRecoveries) :
    ∀ evs ∈ (runLoop cfg s inputs).2,
      LoopEvent.recovery ∉ evs ∧ ∃ b, LoopEvent.probe b ∈ evs := by
  induction inputs generalizing s with
  | nil => intro evs h; cases h
  | cons i rest ih =>
    intro evs h
    obtain ⟨h1, h2, h3⟩ := tick_exhausted cfg s i hs
    simp only [runLoop, List.mem_cons] at h
    rcases h with h | h
    · exact h ▸ ⟨h2, ⟨i.healthOK, h3⟩⟩
    · exact ih (tick cfg s i).1 h1 evs h

/-- C2: in every reachable state of the watchdog loop the recovery
counter never exceeds the configured (non-negative) budget, and once
the counter equals the budget every later tick runs no recovery — so
no process stop and no pf_apply PolicyApplier invocation, since in the
loop both happen only inside doRecovery — while every tick still
probes health. -/
theorem recovery_budget_respected (cfg : WatchdogCfg) (inputs : List TickInput)
    (s : LoopState) (hmax : 0 ≤ cfg.maxRecoveries)
    (hexh : s.recoveries = cfg.maxRecoveries) :
    (runLoop cfg ⟨0, 0⟩ inputs).1.recoveries ≤ cfg.maxRecoveries
    ∧ (∀ evs ∈ (runLoop cfg s inputs).2,
        LoopEvent.recovery ∉ evs ∧ ∃ b, LoopEvent.probe b ∈ evs) :=
  ⟨runLoop_recoveries_le cfg inputs ⟨0, 0⟩ hmax,
   runLoop_exhausted cfg inputs s hexh⟩

/-- C2 witness: budget 2, threshold 3; a fresh loop stays within the
budget, and a loop whose counter equals the budget probes without
recovering. -/
theorem recovery_budget_respected_witness :
    (runLoop ⟨3, 2⟩ ⟨0, 0⟩ [⟨false, false, false⟩]).1.recoveries ≤ 2
    ∧ (∀ evs ∈ (runLoop ⟨3, 2⟩ ⟨0, 2⟩ [⟨false, false, false⟩]).2,
        LoopEvent.recovery ∉ evs ∧ ∃ b, LoopEvent.probe b ∈ evs) :=
  recovery_budget_respected ⟨3, 2⟩ [⟨false, false, false⟩] ⟨0, 2⟩ (by decide) rfl

/-- C3 counterexample: with threshold 2 and budget 5, three straight
failing probes (recovery failing, re-probe failing) cross the
threshold exactly once, yet trigger two recovery attempts — because a
failed recovery does not reset the failure counter, a single
threshold-crossing keeps triggering one attempt per failing tick. -/
theorem recovery_not_once_per_crossing :
    recoveryEventCount
        (runLoop ⟨2, 5⟩ ⟨0, 0⟩
          [⟨false, true, false⟩, ⟨false, true, false⟩, ⟨false, true, false⟩]).2 = 2
    ∧ specThresholdCrossings ⟨2, 5⟩ ⟨0, 0⟩
        [⟨false, true, false⟩, ⟨false, true, false⟩, ⟨false, true, false⟩] = 1 := by
  exact ⟨by decide, by decide⟩

/-- C3 (amended): a loop iteration runs at most one recovery attempt
(the loop is strictly sequential, so attempts never overlap), and it
runs one exactly when the failure counter as updated by the probe of
that iteration has reached the threshold while budget remains; under
sustained failure this repeats on every failing tick until a probe
succeeds, rather than exactly once per threshold-crossing. -/
theorem recovery_attempts_per_tick (cfg : WatchdogCfg) (s : LoopState) (i : TickInput) :
    (tick cfg s i).2.count .recovery ≤ 1
    ∧ ((tick cfg s i).2.count .recovery
        = if cfg.failureThreshold ≤ (if i.healthOK then 0 else s.consecutiveFails + 1)
              ∧ s.recoveries < cfg.maxRecoveries
          then 1 else 0) := by
  simp only [tick]
  split_ifs
  all_goals simp_all [List.count_cons]
  all_goals omega

end WatchdogClaims

section StopClaims

/-- C5 counterexample: an ownership record for pid 5 is found, the
process is alive and survives both the graceful SIGTERM grace period
and the SIGKILL escalation; StopIfOwned then returns the stop error
with the ownership record still in place — refuting that the record is
always cleared regardless of outcome. -/
theorem stopIfOwned_keeps_record_on_stop_failure :
    readPID (some 5) = some 5
    ∧ (StopIfOwned (fun _ => true) ⟨fun _ => true, fun _ => true⟩ (some 5)).2.1 = some 5
    ∧ (StopIfOwned (fun _ => true) ⟨fun _ => true, fun _ => true⟩ (some 5)).1
        = .error "failed to stop sing-box pid 5" := by
  refine ⟨by decide, by decide, rfl⟩

/-- C5 (amended): when stopIfOwned finds an ownership record, the
record is cleared by return whenever the recorded process is already
dead or the graceful-or-forceful stop succeeds; only when the process
survives both SIGTERM and SIGKILL does the call return the stop error
and keep the record. -/
theorem stopIfOwned_clears_record (alive : Int → Bool) (so : StopOracle)
    (pidfile : Option Int) (pid : Int) (hfound : readPID pidfile = some pid) :
    (processAlive alive pid = false →
      StopIfOwned alive so pidfile = (.ok (), none, []))
    ∧ (processAlive alive pid = true → so.survivesTerm pid = false →
        (StopIfOwned alive so pidfile).1 = .ok ()
        ∧ (StopIfOwned alive so pidfile).2.1 = none)
    ∧ (processAlive alive pid = true → so.survivesTerm pid = true →
        so.survivesKill pid = false →
        (StopIfOwned alive so pidfile).1 = .ok ()
        ∧ (StopIfOwned alive so pidfile).2.1 = none)
    ∧ (processAlive alive pid = true → so.survivesTerm pid = true →
        so.survivesKill pid = true →
        (StopIfOwned alive so pidfile).1
            = .error ("failed to stop sing-box pid " ++ toString pid)
        ∧ (StopIfOwned alive so pidfile).2.1 = pidfile) := by
  refine ⟨?_, ?_, ?_, ?_⟩
  · intro hdead
    simp [StopIfOwned, hfound, hdead]
  · intro halive hterm
    simp [StopIfOwned, stopPID, hfound, halive, hterm]
  · intro halive hterm hkill
    simp [StopIfOwned, stopPID, hfound, halive, hterm, hkill]
  · intro halive hterm hkill
    simp [StopIfOwned, stopPID, hfound, halive, hterm, hkill]

/-- C5 witness: the amended statement applied at a record for pid 7
whose process dies within the SIGTERM grace period. -/
theorem stopIfOwned_clears_record_witness :
    (StopIfOwned (fun _ => true) ⟨fun _ => false, fun _ => false⟩ (some 7)).1 = .ok ()
    ∧ (StopIfOwned (fun _ => true) ⟨fun _ => false, fun _ => false⟩ (some 7)).2.1 = none :=
  (stopIfOwned_clears_record (fun _ => true) ⟨fun _ => false, fun _ => false⟩
      (some 7) 7 (by decide)).2.1 (by decide) rfl

end StopClaims

section WatcherClaims

/-- C7: evaluation at the failing input. Two utun interfaces pre-exist
and both already carry IPv4 — so neither is new relative to the
before-snapshot, neither was present without a routable address, and
two candidates exist — yet the watcher accepts the first pre-existing,
already-ready interface at the first poll. The single-candidate guard
described by the specification (and by the source comment above the
final return: if only one tunnel exists, this is still good enough) is
not implemented: the return is unconditional. -/
theorem waitForUTUNReady_accepts_preexisting_ready :
    waitForUTUNReady (some ["utun0", "utun5"]) (some [])
        [[("utun0", true), ("utun5", true)]] "" = .ok "utun0"
    ∧ ["utun0", "utun5"].contains "utun0" = true
    ∧ (([] : List String).contains "utun0") = false
    ∧ ["utun0", "utun5"].length = 2 := by
  refine ⟨rfl, by decide, by decide, by decide⟩

end WatcherClaims

/-- Helper: the preferred-name wait only ever returns the preferred
name. -/
theorem waitForPreferred_ok (prefer : String) (polls : List Snap) (n : String)
    (h : waitForPreferred prefer polls = .ok n) : n = prefer := by
  induction polls with
  | nil => simp [waitForPreferred] at h
  | cons s rest ih =>
    by_cases hc : utunHasIPv4 s prefer = some true
    · simp [waitForPreferred, hc] at h
      exact h.symm
    · simp only [waitForPreferred] at h
      rw [if_neg (by simp [hc])] at h
      exact ih h

/-- Helper: when the preferred interface has no IPv4 at every poll
before the deadline, the preferred-name wait reports the timeout
error. -/
theorem waitForPreferred_timeout (prefer : String) (polls : List Snap)
    (h : ∀ s ∈ polls, utunHasIPv4 s prefer ≠ some true) :
    waitForPreferred prefer polls
      = .error ("preferred utun \"" ++ prefer ++ "\" not ready before timeout") := by
  induction polls with
  | nil => rfl
  | cons s rest ih =>
    have hs := h s (by simp)
    simp only [waitForPreferred]
    rw [if_neg (by simp [hs])]
    exact ih (fun t ht => h t (by simp [ht]))

/-- C4 counterexample: the sing-box config pins utun66, an owned
process is already running, and the pre-existing unrelated utun0
carries IPv4; interface resolution inside EnsureRunning (its pickReady
helper) accepts and returns utun0, a name different from the
configured preferred one. -/
theorem ensureRunning_overrides_preferred :
    (EnsureRunning
        { alive := fun _ => true, stop := ⟨fun _ => false, fun _ => false⟩,
          adoptExternal := some false, pgrepCandidate := none,
          preferUTUN := "utun66",
          beforeSnap := [("utun0", true)], afterSnap := [("utun0", true)],
          polls := [], startResult := .error "unused", writePIDOk := true }
        (some 7)).1
      = .ok ⟨true, 7, true, "utun0"⟩
    ∧ "utun0" ≠ "utun66" := by
  exact ⟨rfl, by decide⟩

/-- C4 (amended): the interface watcher itself honours a pinned
preferred name — with a preferred name configured, waitForUTUNReady
never returns a different name, and it returns the timeout error when
the preferred interface lacks IPv4 at every poll before the deadline.
EnsureRunning guarantees this only on its start-new-process path: with
an already-running (owned or adopted) process it first accepts any
currently present interface with IPv4, which can differ from the
preferred name (see the counterexample). -/
theorem waitForUTUNReady_honours_preferred
    (beforeSet beforeNoIPv4 : Option (List String))
    (polls : List Snap) (prefer : String) (hp : prefer ≠ "") :
    (∀ n, waitForUTUNReady beforeSet beforeNoIPv4 polls prefer = .ok n → n = prefer)
    ∧ ((∀ s ∈ polls, utunHasIPv4 s prefer ≠ some true) →
        waitForUTUNReady beforeSet beforeNoIPv4 polls prefer
          = .error ("preferred utun \"" ++ prefer ++ "\" not ready before timeout")) := by
  have hp2 : (prefer != "") = true := bne_iff_ne.mpr hp
  constructor
  · intro n h
    rw [waitForUTUNReady, if_pos hp2] at h
    exact waitForPreferred_ok prefer polls n h
  · intro hnever
    rw [waitForUTUNReady, if_pos hp2]
    exact waitForPreferred_timeout prefer polls hnever

/-- C4 witness: with utun66 pinned and no poll showing it ready, the
wait ends in the timeout error naming utun66. -/
theorem waitForUTUNReady_honours_preferred_witness :
    waitForUTUNReady (some []) (some []) [[("utun0", true)]] "utun66"
      = .error "preferred utun \"utun66\" not ready before timeout" :=
  (waitForUTUNReady_honours_preferred (some []) (some []) [[("utun0", true)]]
      "utun66" (by decide)).2 (by decide)

/-- Helper: every signal stopPID sends targets the given pid; the
SIGTERM to the process group is always sent first; and the stop
succeeds whenever the process dies from either signal. -/
theorem stopPID_signals (so : StopOracle) (pid : Int) :
    (∀ ev ∈ (stopPID so pid).2, ev.pid = pid)
    ∧ ⟨pid, .sigterm, true⟩ ∈ (stopPID so pid).2
    ∧ (so.survivesTerm pid = false ∨ so.survivesKill pid = false →
        (stopPID so pid).1 = .ok ()) := by
  refine ⟨?_, ?_, ?_⟩
  · intro ev hev
    unfold stopPID at hev
    by_cases ht : so.survivesTerm pid
    · by_cases hk : so.survivesKill pid
      · simp [ht, hk] at hev
        rcases hev with rfl | rfl | rfl | rfl <;> rfl
      · simp [ht, hk] at hev
        rcases hev with rfl | rfl | rfl | rfl <;> rfl
    · simp [ht] at hev
      rcases hev with rfl | rfl <;> rfl
  · unfold stopPID
    by_cases ht : so.survivesTerm pid <;>
      by_cases hk : so.survivesKill pid <;> simp [ht, hk]
  · intro hor
    unfold stopPID
    by_cases ht : so.survivesTerm pid
    · rcases hor with h | h
      · rw [ht] at h; cases h
      · simp [ht, h]
    · simp [ht]

/-- C8: on the start-new-process branch, when the interface does not
become ready before the deadline, the operation fails and restores the
prior state: the error is returned, the freshly written ownership
record is removed, and the stop sequence is issued against exactly the
just-started pid (so whenever that process responds to SIGTERM or
SIGKILL it is no longer running); EnsureRunning reaches this branch
when no ownership record exists and adoption is disabled. -/
theorem ensureStart_timeout_restores_state (o : EnsureOracle) (pf : Option Int)
    (pid : Int) (m : String)
    (hstart : o.startResult = .ok pid)
    (hwrite : o.writePIDOk = true)
    (hwait : waitForUTUNReady (some (listUTUN o.beforeSnap).1)
        (some (listUTUN o.beforeSnap).2) o.polls o.preferUTUN = .error m) :
    (ensureStart o pf).1
        = .error ("sing-box started but no utun appeared before timeout: " ++ m)
    ∧ (ensureStart o pf).2.1 = none
    ∧ (ensureStart o pf).2.2 = (stopPID o.stop pid).2
    ∧ (∀ ev ∈ (ensureStart o pf).2.2, ev.pid = pid)
    ∧ (o.stop.survivesTerm pid = false ∨ o.stop.survivesKill pid = false →
        (stopPID o.stop pid).1 = .ok ())
    ∧ (readPID pf = none → EnsureRunning o pf = ensureAdoptOrStart o pf)
    ∧ (boolVal o.adoptExternal true = false →
        ensureAdoptOrStart o pf = ensureStart o pf) := by
  have hsigs : (ensureStart o pf).2.2 = (stopPID o.stop pid).2 := by
    simp only [ensureStart, hstart, hwrite, hwait, Bool.not_true, Bool.false_eq_true,
      if_false]
  refine ⟨?_, ?_, hsigs, ?_, (stopPID_signals o.stop pid).2.2, ?_, ?_⟩
  · simp only [ensureStart, hstart, hwrite, hwait, Bool.not_true, Bool.false_eq_true,
      if_false]
  · simp only [ensureStart, hstart, hwrite, hwait, Bool.not_true, Bool.false_eq_true,
      if_false]
  · intro ev hev
    rw [hsigs] at hev
    exact (stopPID_signals o.stop pid).1 ev hev
  · intro hnone
    simp only [EnsureRunning, hnone]
  · intro hadopt
    simp only [ensureAdoptOrStart, hadopt, Bool.false_eq_true, if_false]

/-- C8 witness: concrete start branch (no record, adoption disabled,
no poll ever ready) showing the error, the cleared record, and the
stop of the started pid 42. -/
theorem ensureStart_timeout_restores_state_witness :
    (ensureStart
        { alive := fun _ => true, stop := ⟨fun _ => false, fun _ => false⟩,
          adoptExternal := some false, pgrepCandidate := none, preferUTUN := "",
          beforeSnap := [], afterSnap := [], polls := [],
          startResult := .ok 42, writePIDOk := true }
        none).1
      = .error
          "sing-box started but no utun appeared before timeout: no utun with IPv4 within timeout"
    ∧ (ensureStart
        { alive := fun _ => true, stop := ⟨fun _ => false, fun _ => false⟩,
          adoptExternal := some false, pgrepCandidate := none, preferUTUN := "",
          beforeSnap := [], afterSnap := [], polls := [],
          startResult := .ok 42, writePIDOk := true }
        none).2.1 = none := by
  have h := ensureStart_timeout_restores_state
    { alive := fun _ => true, stop := ⟨fun _ => false, fun _ => false⟩,
      adoptExternal := some false, pgrepCandidate := none, preferUTUN := "",
      beforeSnap := [], afterSnap := [], polls := [],
      startResult := .ok 42, writePIDOk := true }
    none 42 "no utun with IPv4 within timeout" rfl rfl rfl
  exact ⟨h.1, h.2.1⟩

/-- Helper: every signal StopIfOwned sends targets the pid read from
the ownership record. -/
theorem stopIfOwned_signals (alive : Int → Bool) (so : StopOracle) (pf : Option Int)
    (ev : SignalEvent) (hev : ev ∈ (StopIfOwned alive so pf).2.2) :
    ∃ p, readPID pf = some p ∧ ev.pid = p := by
  cases h : readPID pf with
  | none => simp [StopIfOwned, h] at hev
  | some pid =>
    cases ha : processAlive alive pid with
    | false => simp [StopIfOwned, h, ha] at hev
    | true =>
      rcases hsp : stopPID so pid with ⟨r, sigs⟩
      have hmem : ev ∈ sigs → ev.pid = pid := by
        intro hm
        exact (stopPID_signals so pid).1 ev (by rw [hsp]; exact hm)
      cases r with
      | error e =>
        simp [StopIfOwned, h, ha, hsp] at hev
        exact ⟨pid, rfl, hmem hev⟩
      | ok u =>
        simp [StopIfOwned, h, ha, hsp] at hev
        exact ⟨pid, rfl, hmem hev⟩

/-- Helper: every signal the start-new-process branch sends targets
the pid returned by startSingBox. -/
theorem ensureStart_signals (o : EnsureOracle) (pf : Option Int) (ev : SignalEvent)
    (hev : ev ∈ (ensureStart o pf).2.2) :
    ∃ p, o.startResult = .ok p ∧ ev.pid = p := by
  cases hst : o.startResult with
  | error e => simp [ensureStart, hst] at hev
  | ok pid =>
    refine ⟨pid, rfl, ?_⟩
    cases hw : o.writePIDOk with
    | false =>
      rcases hsp : stopPID o.stop pid with ⟨r, sigs⟩
      simp [ensureStart, hst, hw, hsp] at hev
      exact (stopPID_signals o.stop pid).1 ev (by rw [hsp]; exact hev)
    | true =>
      cases hwt : waitForUTUNReady (some (listUTUN o.beforeSnap).1)
          (some (listUTUN o.beforeSnap).2) o.polls o.preferUTUN with
      | error m =>
        rcases hsp : stopPID o.stop pid with ⟨r, sigs⟩
        simp [ensureStart, hst, hw, hwt, hsp] at hev
        exact (stopPID_signals o.stop pid).1 ev (by rw [hsp]; exact hev)
      | ok u => simp [ensureStart, hst, hw, hwt] at hev

/-- Helper: the adopt-or-start stage emits signals only from the start
branch, so they target the started pid; the adoption branch never
signals. -/
theorem ensureAdoptOrStart_signals (o : EnsureOracle) (pf : Option Int)
    (ev : SignalEvent) (hev : ev ∈ (ensureAdoptOrStart o pf).2.2) :
    ∃ p, o.startResult = .ok p ∧ ev.pid = p := by
  cases hb : boolVal o.adoptExternal true with
  | false =>
    simp [ensureAdoptOrStart, hb] at hev
    exact ensureStart_signals o pf ev hev
  | true =>
    cases hfx : findExternalSingBoxPID o.alive o.pgrepCandidate with
    | none =>
      simp [ensureAdoptOrStart, hb, hfx] at hev
      exact ensureStart_signals o pf ev hev
    | some pid =>
      cases hg : (decide (pid > 0) && processAlive o.alive pid) with
      | false =>
        simp [ensureAdoptOrStart, hb, hfx, hg] at hev
        exact ensureStart_signals o pf ev hev
      | true =>
        cases hpk : pickReady o with
        | ok u => simp [ensureAdoptOrStart, hb, hfx, hg, hpk] at hev
        | error e => simp [ensureAdoptOrStart, hb, hfx, hg, hpk] at hev

/-- Helper: every signal EnsureRunning sends targets the started pid;
its owned and adopted branches never signal. -/
theorem ensureRunning_signals (o : EnsureOracle) (pf : Option Int)
    (ev : SignalEvent) (hev : ev ∈ (EnsureRunning o pf).2.2) :
    ∃ p, o.startResult = .ok p ∧ ev.pid = p := by
  cases h : readPID pf with
  | none =>
    simp [EnsureRunning, h] at hev
    exact ensureAdoptOrStart_signals o pf ev hev
  | some pid =>
    cases ha : processAlive o.alive pid with
    | false =>
      simp [EnsureRunning, h, ha] at hev
      exact ensureAdoptOrStart_signals o pf ev hev
    | true =>
      cases hpk : pickReady o with
      | ok u => simp [EnsureRunning, h, ha, hpk] at hev
      | error e => simp [EnsureRunning, h, ha, hpk] at hev

/-- Helper: the signal trace of the post-stop recovery tail is the
accumulated prefix followed by the EnsureRunning signals. -/
theorem doRecoveryAfterStop_sigs (o : RecoveryOracle) (pf2 : Option Int)
    (sigs0 : List SignalEvent) :
    (doRecoveryAfterStop o pf2 sigs0).2.2
      = sigs0 ++ (EnsureRunning o.ensure pf2).2.2 := by
  unfold doRecoveryAfterStop
  rcases her : EnsureRunning o.ensure pf2 with ⟨r, pfx, sigs⟩
  cases r with
  | error e => rfl
  | ok sb =>
    dsimp only
    by_cases hc : (!sb.running || sb.newUTUN == "") = true
    · rw [if_pos hc]
    · rw [if_neg hc]
      cases hpa : o.pfApplyErr <;> rfl

/-- C1: every terminate or kill signal sent anywhere in the recovery
flow (doRecovery, including its StopIfOwned and EnsureRunning parts)
targets an owned pid — either the pid read from the ownership record
(the ownedByUs=true process) or the pid of the process the daemon
itself starts during the flow; a process with ownedByUs=false (an
adopted external process) belongs to neither class, so it is never
signalled by any operation of the flow. -/
theorem recovery_signals_only_owned (o : RecoveryOracle) (pf : Option Int)
    (ev : SignalEvent) (hev : ev ∈ (doRecovery o pf).2.2) :
    ev.pid ∈ ownedPids o pf := by
  have hstart : ∀ p, o.ensure.startResult = .ok p → ev.pid = p →
      ev.pid ∈ ownedPids o pf := by
    intro p hp hpe
    simp [ownedPids, hp, hpe]
  simp only [doRecovery] at hev
  cases h : readPID pf with
  | none =>
    simp only [Inspect, h] at hev
    simp only [Bool.false_eq_true, if_false] at hev
    rw [doRecoveryAfterStop_sigs, List.nil_append] at hev
    obtain ⟨p, hp, hpe⟩ := ensureRunning_signals o.ensure pf ev hev
    exact hstart p hp hpe
  | some pid =>
    have hoby : (Inspect o.ensure.alive pf).ownedByUs = true := by
      simp only [Inspect, h]
      split <;> rfl
    rw [hoby] at hev
    simp only [if_true] at hev
    have hstop : ev ∈ (StopIfOwned o.ensure.alive o.ensure.stop pf).2.2 →
        ev.pid ∈ ownedPids o pf := by
      intro hm
      obtain ⟨p, hp, hpe⟩ := stopIfOwned_signals o.ensure.alive o.ensure.stop pf ev hm
      simp [ownedPids, hp, hpe]
    rcases hsw : StopIfOwned o.ensure.alive o.ensure.stop pf with ⟨r, pf2, sigs⟩
    rw [hsw] at hev
    cases r with
    | error e => exact hstop (by rw [hsw]; exact hev)
    | ok u =>
      rw [doRecoveryAfterStop_sigs] at hev
      rcases List.mem_append.mp hev with hm | hm
      · exact hstop (by rw [hsw]; exact hm)
      · obtain ⟨p, hp, hpe⟩ := ensureRunning_signals o.ensure pf2 ev hm
        exact hstart p hp hpe

/-- C1 witness: a concrete recovery run on an owned record for pid 7
(a live process that dies on SIGTERM); the first emitted signal, the
group SIGTERM, targets pid 7, which is an owned pid. -/
theorem recovery_signals_only_owned_witness :
    (⟨7, .sigterm, true⟩ : SignalEvent).pid ∈
      ownedPids
        { ensure :=
            { alive := fun _ => true, stop := ⟨fun _ => false, fun _ => false⟩,
              adoptExternal := some false, pgrepCandidate := none, preferUTUN := "",
              beforeSnap := [], afterSnap := [("utun7", true)],
              polls := [[("utun7", true)]],
              startResult := .ok 42, writePIDOk := true },
          pfApplyErr := none }
        (some 7) :=
  recovery_signals_only_owned
    { ensure :=
        { alive := fun _ => true, stop := ⟨fun _ => false, fun _ => false⟩,
          adoptExternal := some false, pgrepCandidate := none, preferUTUN := "",
          beforeSnap := [], afterSnap := [("utun7", true)],
          polls := [[("utun7", true)]],
          startResult := .ok 42, writePIDOk := true },
      pfApplyErr := none }
    (some 7) ⟨7, .sigterm, true⟩ (by decide)

end VpnRouter
